import Mathlib

/-!
Shallow embedding of the PyCorrectorCompare repository (positive-only
evaluation of Chinese spelling correctors) and proofs of its specification
claims.

Python floats are modelled by `ℚ`: every ratio the code computes is a
quotient of small integers and every branch condition is an exact
comparison with zero, so rational arithmetic reproduces the code's
decisions and values. Python `int` counts are modelled by `ℕ` (the claims
restrict the externally supplied `fp` to non-negative values). Fallible
operations (file persistence) are modelled with `Except`; the backend
library call is an explicit function argument.
-/

/- ### models/base_model.py and models/macbert_csc.py : data -/

/-- A dynamically typed Python value as it appears in a pycorrector
error-detail tuple: the first two components are strings, the third an
integer position, but the code never checks the types, only tuple arity. -/
inductive PyVal where
  | str : String → PyVal
  | int : Int → PyVal
deriving DecidableEq, Repr

/-- The normalized error record built by `MacBertCSCCorrector._parse_errors`:
the Python dict with keys "position", "original", "corrected". -/
structure ErrorRecord where
  position : PyVal
  original : PyVal
  corrected : PyVal
deriving DecidableEq, Repr

/-- `CorrectionResult` dataclass from models/base_model.py. -/
structure CorrectionResult where
  original : String
  corrected : String
  has_error : Bool
  errors : List ErrorRecord
deriving DecidableEq, Repr

/- ### evaluation/metrics.py -/

/-- `DetectionResult` dataclass from evaluation/metrics.py. -/
structure DetectionResult where
  sentence : String
  has_error_detected : Bool
  corrected_sentence : String := ""
  error_details : Option (List ErrorRecord) := none
deriving DecidableEq, Repr

/-- `MetricsCalculator` state: the list of added detection results. -/
structure MetricsCalculator where
  results : List DetectionResult := []
deriving DecidableEq, Repr

namespace MetricsCalculator

/-- `add_result`: append a single result. -/
def add_result (m : MetricsCalculator) (result : DetectionResult) : MetricsCalculator :=
  { m with results := m.results ++ [result] }

/-- `add_results`: extend with a batch of results. -/
def add_results (m : MetricsCalculator) (results : List DetectionResult) : MetricsCalculator :=
  { m with results := m.results ++ results }

/-- `clear`: reset to the empty list. -/
def clear (_m : MetricsCalculator) : MetricsCalculator :=
  { results := [] }

/-- `_count_tp_fn`: TP is the number of results whose detection flag is
set, FN is the remainder. -/
def count_tp_fn (m : MetricsCalculator) : ℕ × ℕ :=
  let tp := (m.results.filter fun r => r.has_error_detected).length
  let fn := m.results.length - tp
  (tp, fn)

/-- `calculate_recall`: TP / (TP + FN), with the two zero guards of the
Python code. -/
def calculate_recall (m : MetricsCalculator) : ℚ :=
  if m.results.length = 0 then 0
  else
    let tpfn := m.count_tp_fn
    let total := tpfn.1 + tpfn.2
    if total = 0 then 0
    else (tpfn.1 : ℚ) / (total : ℚ)

/-- `calculate_precision`: TP / (TP + FP) with an externally supplied FP,
returning 0.0 when TP + FP = 0. -/
def calculate_precision (m : MetricsCalculator) (fp : ℕ) : ℚ :=
  let tp := m.count_tp_fn.1
  if tp + fp = 0 then 0
  else (tp : ℚ) / ((tp : ℚ) + (fp : ℚ))

/-- `calculate_f_score`: the F-beta formula with the division-by-zero
guard returning 0.0. -/
def calculate_f_score (m : MetricsCalculator) (beta : ℚ) (fp : ℕ) : ℚ :=
  let precision := m.calculate_precision fp
  let «recall» := m.calculate_recall
  if precision + «recall» = 0 then 0
  else
    let beta_squared := beta ^ 2
    (1 + beta_squared) * (precision * «recall») / (beta_squared * precision + «recall»)

/-- `calculate_f05` (beta = 0.5). -/
def calculate_f05 (m : MetricsCalculator) (fp : ℕ) : ℚ :=
  m.calculate_f_score (1 / 2) fp

/-- `calculate_f1` (beta = 1.0). -/
def calculate_f1 (m : MetricsCalculator) (fp : ℕ) : ℚ :=
  m.calculate_f_score 1 fp

/-- `calculate_f2` (beta = 2.0). -/
def calculate_f2 (m : MetricsCalculator) (fp : ℕ) : ℚ :=
  m.calculate_f_score 2 fp

end MetricsCalculator

/-- The fixed-shape record returned by `calculate_all_metrics` (the Python
dict key "f0.5" is spelled `f05`). -/
structure MetricsRecord where
  total_sentences : ℕ
  true_positive : ℕ
  false_negative : ℕ
  false_positive : ℕ
  precision : ℚ
  «recall» : ℚ
  f05 : ℚ
  f1 : ℚ
  f2 : ℚ
deriving DecidableEq, Repr

namespace MetricsCalculator

/-- `calculate_all_metrics`. -/
def calculate_all_metrics (m : MetricsCalculator) (fp : ℕ) : MetricsRecord :=
  let tpfn := m.count_tp_fn
  { total_sentences := m.results.length
    true_positive := tpfn.1
    false_negative := tpfn.2
    false_positive := fp
    precision := m.calculate_precision fp
    «recall» := m.calculate_recall
    f05 := m.calculate_f05 fp
    f1 := m.calculate_f1 fp
    f2 := m.calculate_f2 fp }

end MetricsCalculator

/-- One entry of `MetricsCalculator.get_detailed_results`. -/
structure DetailedResult where
  index : ℕ
  sentence : String
  detected : Bool
  corrected : String
  details : Option (List ErrorRecord)
deriving DecidableEq, Repr

namespace MetricsCalculator

/-- The `enumerate` loop of `get_detailed_results`, with the running index
made explicit. -/
def get_detailed_results_from (i : ℕ) : List DetectionResult → List DetailedResult
  | [] => []
  | r :: rest =>
    { index := i, sentence := r.sentence, detected := r.has_error_detected,
      corrected := r.corrected_sentence, details := r.error_details } ::
      get_detailed_results_from (i + 1) rest

/-- `get_detailed_results`. -/
def get_detailed_results (m : MetricsCalculator) : List DetailedResult :=
  get_detailed_results_from 0 m.results

end MetricsCalculator

/- ### models/macbert_csc.py : behaviour -/

/-- The pycorrector backend's `correct` method: a sentence maps to a
corrected text and a list of error-detail tuples (tuples modelled as
lists of dynamically typed values). -/
abbrev Backend := String → String × List (List PyVal)

/-- `MacBertCSCCorrector` state: `_corrector` is `None` until
`load_model` installs the backend. -/
structure MacBertCSCCorrector where
  corrector : Option Backend := none

/-- One iteration of the `_parse_errors` loop. The first pattern is the
`len(detail) >= 3` branch (position taken from the third element), the
second the `len(detail) == 2` branch (position set to -1, unknown), and
any shorter tuple contributes nothing. -/
def parseDetail : List PyVal → Option ErrorRecord
  | w :: c :: p :: _ =>
    some { position := p, original := w, corrected := c }
  | [w, c] =>
    some { position := PyVal.int (-1), original := w, corrected := c }
  | _ => none

/-- `MacBertCSCCorrector._parse_errors`: the loop appends at most one
record per detail tuple, in order. -/
def parse_errors : List (List PyVal) → List ErrorRecord
  | [] => []
  | detail :: rest =>
    match parseDetail detail with
    | some rec => rec :: parse_errors rest
    | none => parse_errors rest

namespace MacBertCSCCorrector

/-- `load_model`. `mk` models a successful construction of the backend
library object; the returned flag records whether construction was
performed (the early return on an already installed backend never
touches `mk`). -/
def load_model (mk : Backend) (m : MacBertCSCCorrector) :
    MacBertCSCCorrector × Bool :=
  match m.corrector with
  | some _ => (m, false)
  | none => ({ corrector := some mk }, true)

/-- `correct`: lazily loads the backend when `_corrector` is `None`, then
calls it and normalizes the result; `has_error` is `len(errors) > 0`.
The `none` result models the attribute error that calling through a
still-missing backend would raise (that branch is unreachable after the
lazy load). -/
def correct (mk : Backend) (m : MacBertCSCCorrector) (sentence : String) :
    MacBertCSCCorrector × Option CorrectionResult :=
  let m1 := match m.corrector with
    | some _ => m
    | none => (load_model mk m).1
  match m1.corrector with
  | none => (m1, none)
  | some backend =>
    let r := backend sentence
    let errors := parse_errors r.2
    (m1, some { original := sentence, corrected := r.1,
                has_error := decide (0 < errors.length), errors := errors })

end MacBertCSCCorrector

/- ### main.py : run_evaluation -/

/-- One entry of the `detailed_results` list assembled by
`run_evaluation` in main.py. -/
structure DetailedEntry where
  index : ℕ
  original : String
  corrected : String
  detected : Bool
  errors : List ErrorRecord
deriving DecidableEq, Repr

/-- The `full_results` dict assembled by `run_evaluation` (the
wall-clock timestamp is environment input and is not modelled). -/
structure FullResults where
  model_name : String
  metrics : MetricsRecord
  detailed_results : List DetailedEntry
deriving DecidableEq, Repr

/-- State threaded through the sentence loop of `run_evaluation`;
`calls` instruments how many times `corrector.correct` has been
invoked. -/
structure EvalLoopState where
  calls : ℕ
  calculator : MetricsCalculator
  detailed : List DetailedEntry
deriving Repr

/-- The `for i, sentence in enumerate(sentences)` loop of
`run_evaluation`: each iteration performs one `correct` call, adds a
`DetectionResult` to the calculator and appends a detailed entry. -/
def run_eval_loop (c : String → CorrectionResult) :
    ℕ → List String → EvalLoopState → EvalLoopState
  | _, [], st => st
  | i, sentence :: rest, st =>
    let result := c sentence
    let detection : DetectionResult :=
      { sentence := sentence
        has_error_detected := result.has_error
        corrected_sentence := result.corrected
        error_details := some result.errors }
    run_eval_loop c (i + 1) rest
      { calls := st.calls + 1
        calculator := st.calculator.add_result detection
        detailed := st.detailed ++
          [{ index := i, original := sentence, corrected := result.corrected,
             detected := result.has_error, errors := result.errors }] }

/-- The report `run_evaluation` assembles after the full pass: metrics
from `calculate_all_metrics` with the default `fp = 0`, plus the
detailed results, under the model name reported by the corrector. -/
def build_full_results (c : String → CorrectionResult) (sentences : List String) :
    FullResults :=
  let st := run_eval_loop c 0 sentences { calls := 0, calculator := {}, detailed := [] }
  { model_name := "MacBERT-CSC"
    metrics := st.calculator.calculate_all_metrics 0
    detailed_results := st.detailed }

/-- `run_evaluation` from main.py. `c` is the loaded corrector's
per-sentence behaviour; `persist` models the save-to-file step, whose
failure propagates as an exception out of the function (there is no
try/except around the save block), so the report is only returned when
saving succeeds or is disabled. An unsupported `model_name` raises
`ValueError`. -/
def run_evaluation (c : String → CorrectionResult) (sentences : List String)
    (model_name : String) (save_results : Bool)
    (persist : FullResults → Except String Unit) : Except String FullResults :=
  if model_name = "macbert_csc" then
    let full_results := build_full_results c sentences
    if save_results then
      match persist full_results with
      | Except.ok _ => Except.ok full_results
      | Except.error e => Except.error e
    else Except.ok full_results
  else Except.error ("unsupported model: " ++ model_name)

/- ### run_macbert_csc.py and main.py : CLI entry points -/

/-- `run_from_list`: returns `None` (no evaluation) on an empty sentence
list, otherwise runs the evaluation. -/
def run_from_list (c : String → CorrectionResult) (sentences : List String)
    (save : Bool) (persist : FullResults → Except String Unit) :
    Option (Except String FullResults) :=
  if sentences.isEmpty then none
  else some (run_evaluation c sentences "macbert_csc" save persist)

/-- `run_from_file`: runs the evaluation on whatever sentence list the
file yielded, with no emptiness check. -/
def run_from_file (c : String → CorrectionResult) (file_sentences : List String)
    (save : Bool) (persist : FullResults → Except String Unit) :
    Except String FullResults :=
  run_evaluation c file_sentences "macbert_csc" save persist

/-- `main` from main.py: warns and returns `None` when the error-sentence
list is empty, otherwise evaluates with `save_results=True`. -/
def main_fn (c : String → CorrectionResult) (error_sentences : List String)
    (persist : FullResults → Except String Unit) :
    Option (Except String FullResults) :=
  if error_sentences.isEmpty then none
  else some (run_evaluation c error_sentences "macbert_csc" true persist)

/- ### Helper lemmas about the calculator counts -/

/-- TP never exceeds the number of stored results. -/
theorem MetricsCalculator.tp_le_length (m : MetricsCalculator) :
    m.count_tp_fn.1 ≤ m.results.length := by
  simpa [MetricsCalculator.count_tp_fn] using
    List.length_filter_le (fun r => r.has_error_detected) m.results

/-- TP + FN equals the number of stored results. -/
theorem MetricsCalculator.tp_add_fn_eq_length (m : MetricsCalculator) :
    m.count_tp_fn.1 + m.count_tp_fn.2 = m.results.length := by
  have h := m.tp_le_length
  simp only [MetricsCalculator.count_tp_fn] at h ⊢
  omega

/-- Precision is never negative. -/
theorem MetricsCalculator.precision_nonneg (m : MetricsCalculator) (fp : ℕ) :
    0 ≤ m.calculate_precision fp := by
  simp only [MetricsCalculator.calculate_precision]
  split
  · exact le_refl 0
  · positivity

/-- Recall is never negative. -/
theorem MetricsCalculator.recall_nonneg (m : MetricsCalculator) :
    0 ≤ m.calculate_recall := by
  simp only [MetricsCalculator.calculate_recall]
  split
  · exact le_refl 0
  · split
    · exact le_refl 0
    · positivity

/-- Recall never exceeds one. -/
theorem MetricsCalculator.recall_le_one (m : MetricsCalculator) :
    m.calculate_recall ≤ 1 := by
  have htp := m.tp_le_length
  have hsum := m.tp_add_fn_eq_length
  simp only [MetricsCalculator.calculate_recall]
  split
  · exact zero_le_one
  · split
    · exact zero_le_one
    · rename_i hlen htot
      rw [div_le_one (by exact_mod_cast Nat.pos_of_ne_zero htot)]
      exact_mod_cast Nat.le_add_right _ _

/- ### C1 -/

/-- C1: for every accumulator state and every fp ≥ 0, `calculate_precision`
returns TP / (TP + fp) when TP + fp > 0 and 0.0 when TP + fp = 0; with
fp = 0 it returns exactly 1.0 when TP > 0 and exactly 0.0 when TP = 0. -/
theorem calculate_precision_cases (m : MetricsCalculator) (fp : ℕ) :
    (0 < m.count_tp_fn.1 + fp →
      m.calculate_precision fp =
        (m.count_tp_fn.1 : ℚ) / ((m.count_tp_fn.1 : ℚ) + (fp : ℚ))) ∧
    (m.count_tp_fn.1 + fp = 0 → m.calculate_precision fp = 0) ∧
    (fp = 0 → 0 < m.count_tp_fn.1 → m.calculate_precision 0 = 1) ∧
    (fp = 0 → m.count_tp_fn.1 = 0 → m.calculate_precision 0 = 0) := by
  refine ⟨?_, ?_, ?_, ?_⟩
  · intro h
    simp only [MetricsCalculator.calculate_precision]
    rw [if_neg (by omega)]
  · intro h
    simp only [MetricsCalculator.calculate_precision]
    rw [if_pos h]
  · intro _ htp
    simp only [MetricsCalculator.calculate_precision]
    rw [if_neg (by omega)]
    rw [Nat.cast_zero, add_zero, div_self]
    exact_mod_cast htp.ne'
  · intro _ htp
    simp only [MetricsCalculator.calculate_precision]
    rw [if_pos (by omega)]

/-- A one-sentence accumulator state whose single result has the error
detected; used to instantiate theorems at a concrete input. -/
def sampleDetected : MetricsCalculator :=
  { results := [{ sentence := "a", has_error_detected := true }] }

/-- Witness for C1: on a state with TP = 1 and fp = 0, precision is
exactly 1. -/
theorem calculate_precision_cases_witness :
    sampleDetected.calculate_precision 0 = 1 :=
  (calculate_precision_cases sampleDetected 0).2.2.1 rfl (by decide)

/- ### C2 -/

/-- C2: `calculate_recall` returns TP / (TP + FN) when results have been
added, 0.0 on an empty accumulator, and is always in [0, 1]. -/
theorem calculate_recall_cases (m : MetricsCalculator) :
    (m.results ≠ [] →
      m.calculate_recall =
        (m.count_tp_fn.1 : ℚ) / ((m.count_tp_fn.1 : ℚ) + (m.count_tp_fn.2 : ℚ))) ∧
    (m.results = [] → m.calculate_recall = 0) ∧
    0 ≤ m.calculate_recall ∧ m.calculate_recall ≤ 1 := by
  refine ⟨?_, ?_, m.recall_nonneg, m.recall_le_one⟩
  · intro hne
    have hlen : m.results.length ≠ 0 := fun h => hne (List.length_eq_zero.mp h)
    have hsum := m.tp_add_fn_eq_length
    simp only [MetricsCalculator.calculate_recall]
    rw [if_neg hlen, if_neg (by omega)]
    push_cast
    rfl
  · intro he
    simp only [MetricsCalculator.calculate_recall]
    rw [if_pos (by rw [he]; rfl)]

/-- Witness for C2: on a one-sentence state with the error detected,
recall is 1 / (1 + 0). -/
theorem calculate_recall_cases_witness :
    sampleDetected.calculate_recall =
      (sampleDetected.count_tp_fn.1 : ℚ) /
        ((sampleDetected.count_tp_fn.1 : ℚ) + (sampleDetected.count_tp_fn.2 : ℚ)) :=
  (calculate_recall_cases sampleDetected).1 (by decide)

/- ### C3 -/

/-- C3: for beta in {0.5, 1, 2} and any fp ≥ 0, `calculate_f_score` hits no
division by zero: it returns exactly 0.0 when precision + recall = 0, and
otherwise the F-beta formula, whose denominator is then nonzero. -/
theorem calculate_f_score_no_div_zero (m : MetricsCalculator) (beta : ℚ) (fp : ℕ)
    (hbeta : beta = 1 / 2 ∨ beta = 1 ∨ beta = 2) :
    (m.calculate_precision fp + m.calculate_recall = 0 →
      m.calculate_f_score beta fp = 0) ∧
    (m.calculate_precision fp + m.calculate_recall ≠ 0 →
      beta ^ 2 * m.calculate_precision fp + m.calculate_recall ≠ 0 ∧
      m.calculate_f_score beta fp =
        (1 + beta ^ 2) * (m.calculate_precision fp * m.calculate_recall) /
          (beta ^ 2 * m.calculate_precision fp + m.calculate_recall)) := by
  have hp := m.precision_nonneg fp
  have hr := m.recall_nonneg
  have hb2 : 0 < beta ^ 2 := by
    rcases hbeta with h | h | h <;> subst h <;> norm_num
  constructor
  · intro h
    simp only [MetricsCalculator.calculate_f_score]
    rw [if_pos h]
  · intro h
    have hpr : 0 < m.calculate_precision fp + m.calculate_recall :=
      lt_of_le_of_ne (by positivity) (Ne.symm h)
    have hpos : 0 < beta ^ 2 * m.calculate_precision fp + m.calculate_recall := by
      rcases eq_or_lt_of_le hp with hp0 | hp0
      · rw [← hp0] at hpr ⊢
        simpa using hpr
      · have := mul_pos hb2 hp0
        linarith
    refine ⟨ne_of_gt hpos, ?_⟩
    simp only [MetricsCalculator.calculate_f_score]
    rw [if_neg h]

/-- Witness for C3: with TP = 1, fp = 0, beta = 1 the denominator is
nonzero and the formula branch is taken. -/
theorem calculate_f_score_no_div_zero_witness :
    (1 : ℚ) ^ 2 * sampleDetected.calculate_precision 0 +
        sampleDetected.calculate_recall ≠ 0 ∧
      sampleDetected.calculate_f_score 1 0 =
        (1 + (1 : ℚ) ^ 2) *
            (sampleDetected.calculate_precision 0 * sampleDetected.calculate_recall) /
          ((1 : ℚ) ^ 2 * sampleDetected.calculate_precision 0 +
            sampleDetected.calculate_recall) :=
  (calculate_f_score_no_div_zero sampleDetected 1 0 (Or.inr (Or.inl rfl))).2 (by
    norm_num [sampleDetected, MetricsCalculator.calculate_precision,
      MetricsCalculator.calculate_recall, MetricsCalculator.count_tp_fn])

/- ### C4 -/

/-- One call against a `MetricsCalculator` in an arbitrary call sequence. -/
inductive CalcOp where
  | addOne : DetectionResult → CalcOp
  | addMany : List DetectionResult → CalcOp
  | clearAll : CalcOp

/-- Apply one accumulator call. -/
def applyOp (m : MetricsCalculator) : CalcOp → MetricsCalculator
  | CalcOp.addOne r => m.add_result r
  | CalcOp.addMany rs => m.add_results rs
  | CalcOp.clearAll => m.clear

/-- Apply a sequence of accumulator calls in order. -/
def applyOps (m : MetricsCalculator) (ops : List CalcOp) : MetricsCalculator :=
  ops.foldl applyOp m

/-- C4: after any sequence of add_result / add_results / clear calls,
TP + FN equals the number of stored results; TP and the total are
monotonically non-decreasing across add calls; clear resets both to 0. -/
theorem accumulator_invariants (m : MetricsCalculator) (ops : List CalcOp)
    (r : DetectionResult) (rs : List DetectionResult) :
    ((applyOps m ops).count_tp_fn.1 + (applyOps m ops).count_tp_fn.2 =
      (applyOps m ops).results.length) ∧
    (m.count_tp_fn.1 ≤ (m.add_result r).count_tp_fn.1 ∧
      m.results.length ≤ (m.add_result r).results.length) ∧
    (m.count_tp_fn.1 ≤ (m.add_results rs).count_tp_fn.1 ∧
      m.results.length ≤ (m.add_results rs).results.length) ∧
    (m.clear.count_tp_fn.1 = 0 ∧ m.clear.results.length = 0) := by
  refine ⟨(applyOps m ops).tp_add_fn_eq_length, ⟨?_, ?_⟩, ⟨?_, ?_⟩, by
    simp [MetricsCalculator.clear, MetricsCalculator.count_tp_fn]⟩
  · simp [MetricsCalculator.add_result, MetricsCalculator.count_tp_fn,
      List.filter_append]
  · simp [MetricsCalculator.add_result]
  · simp [MetricsCalculator.add_results, MetricsCalculator.count_tp_fn,
      List.filter_append]
  · simp [MetricsCalculator.add_results]


/- ### C5 -/

/-- The detailed entries the `run_evaluation` loop produces for a
sentence list, starting at a given index. -/
def detailed_of (c : String → CorrectionResult) : ℕ → List String → List DetailedEntry
  | _, [] => []
  | i, s :: rest =>
    { index := i, original := s, corrected := (c s).corrected,
      detected := (c s).has_error, errors := (c s).errors } ::
      detailed_of c (i + 1) rest

/-- The loop only ever appends to the detailed-results list, producing
exactly the entries of `detailed_of`. -/
theorem run_eval_loop_detailed (c : String → CorrectionResult) :
    ∀ (ss : List String) (i : ℕ) (st : EvalLoopState),
      (run_eval_loop c i ss st).detailed = st.detailed ++ detailed_of c i ss := by
  intro ss
  induction ss with
  | nil =>
    intro i st
    simp [run_eval_loop, detailed_of]
  | cons s rest ih =>
    intro i st
    simp only [run_eval_loop, detailed_of, ih, List.append_assoc, List.cons_append,
      List.nil_append]

/-- `detailed_of` has one entry per sentence. -/
theorem detailed_of_length (c : String → CorrectionResult) :
    ∀ (ss : List String) (i : ℕ), (detailed_of c i ss).length = ss.length := by
  intro ss
  induction ss with
  | nil => intro i; rfl
  | cons s rest ih => intro i; simp [detailed_of, ih]

/-- The k-th entry of `detailed_of` starting at index i is built from the
k-th sentence and carries index i + k. -/
theorem detailed_of_getElem (c : String → CorrectionResult) :
    ∀ (ss : List String) (i k : ℕ) (h : k < ss.length),
      (detailed_of c i ss)[k]? =
        some { index := i + k, original := ss.get ⟨k, h⟩,
               corrected := (c (ss.get ⟨k, h⟩)).corrected,
               detected := (c (ss.get ⟨k, h⟩)).has_error,
               errors := (c (ss.get ⟨k, h⟩)).errors } := by
  intro ss
  induction ss with
  | nil =>
    intro i k h
    exact absurd h (Nat.not_lt_zero k)
  | cons s rest ih =>
    intro i k h
    cases k with
    | zero => simp [detailed_of]
    | succ k =>
      have hk : k < rest.length := Nat.lt_of_succ_lt_succ h
      have hadd : i + 1 + k = i + (k + 1) := by omega
      simp only [detailed_of, List.getElem?_cons_succ]
      rw [ih (i + 1) k hk, hadd]
      rfl

/-- C5: `run_evaluation` returns a report whose detailed_results has
exactly one entry per input sentence, in input order: entry i has
index i and original s_i. -/
theorem run_evaluation_order (c : String → CorrectionResult) (sentences : List String)
    (persist : FullResults → Except String Unit) (i : ℕ) (h : i < sentences.length) :
    run_evaluation c sentences "macbert_csc" false persist =
      Except.ok (build_full_results c sentences) ∧
    (build_full_results c sentences).detailed_results.length = sentences.length ∧
    ∃ e : DetailedEntry,
      (build_full_results c sentences).detailed_results[i]? = some e ∧
      e.index = i ∧ e.original = sentences.get ⟨i, h⟩ := by
  have hdet : (build_full_results c sentences).detailed_results =
      detailed_of c 0 sentences := by
    simp [build_full_results, run_eval_loop_detailed]
  refine ⟨rfl, by rw [hdet, detailed_of_length], ?_⟩
  rw [hdet, detailed_of_getElem c sentences 0 i h]
  exact ⟨_, rfl, Nat.zero_add i, rfl⟩

/-- A corrector behaviour that flags no errors and echoes the sentence,
used to instantiate the orchestrator theorems. -/
def echoCorrector : String → CorrectionResult :=
  fun s => { original := s, corrected := s, has_error := false, errors := [] }

/-- A persistence step that always succeeds. -/
def constOkPersist : FullResults → Except String Unit :=
  fun _ => Except.ok ()

/-- Witness for C5: on the two-sentence corpus ["a", "b"], entry 1 has
index 1 and original "b". -/
theorem run_evaluation_order_witness :
    run_evaluation echoCorrector ["a", "b"] "macbert_csc" false constOkPersist =
      Except.ok (build_full_results echoCorrector ["a", "b"]) ∧
    (build_full_results echoCorrector ["a", "b"]).detailed_results.length = 2 ∧
    ∃ e : DetailedEntry,
      (build_full_results echoCorrector ["a", "b"]).detailed_results[1]? = some e ∧
      e.index = 1 ∧ e.original = (["a", "b"] : List String).get ⟨1, by decide⟩ :=
  run_evaluation_order echoCorrector ["a", "b"] constOkPersist 1 (by decide)

/- ### C6 -/

/-- C6: on an empty corpus `run_evaluation` never invokes the corrector
(the instrumented call count stays 0 for every corrector behaviour), and
the report's metrics have total_sentences = 0, recall = 0, precision = 0
and f1 = 0. -/
theorem run_evaluation_empty_corpus (c : String → CorrectionResult)
    (persist : FullResults → Except String Unit) :
    (run_eval_loop c 0 [] { calls := 0, calculator := {}, detailed := [] }).calls = 0 ∧
    run_evaluation c [] "macbert_csc" false persist =
      Except.ok (build_full_results c []) ∧
    (build_full_results c []).metrics.total_sentences = 0 ∧
    (build_full_results c []).metrics.«recall» = 0 ∧
    (build_full_results c []).metrics.precision = 0 ∧
    (build_full_results c []).metrics.f1 = 0 := by
  refine ⟨rfl, rfl, rfl, rfl, rfl, ?_⟩
  simp [build_full_results, run_eval_loop, MetricsCalculator.calculate_all_metrics,
    MetricsCalculator.calculate_f1, MetricsCalculator.calculate_f_score,
    MetricsCalculator.calculate_precision, MetricsCalculator.calculate_recall,
    MetricsCalculator.count_tp_fn]

/- ### C7 -/

/-- A persistence step that always fails, modelling an I/O error while
writing the results file. -/
def failPersist : FullResults → Except String Unit :=
  fun _ => Except.error "disk full"

/-- Counterexample to C7: with saving enabled and a failing persistence
step, `run_evaluation` propagates the error and does not return the
assembled report (there is no try/except around the save block). -/
theorem run_evaluation_persist_failure_counterexample :
    run_evaluation echoCorrector ["a"] "macbert_csc" true failPersist =
      Except.error "disk full" :=
  rfl

/-- C7 (amended): when the persistence step fails, `run_evaluation`
propagates the failure and the report is not returned to the caller; the
report is returned exactly when persistence succeeds or saving is
disabled. -/
theorem run_evaluation_persist_spec (c : String → CorrectionResult)
    (sentences : List String) (persist : FullResults → Except String Unit) :
    (∀ e : String, persist (build_full_results c sentences) = Except.error e →
      run_evaluation c sentences "macbert_csc" true persist = Except.error e) ∧
    (∀ u : Unit, persist (build_full_results c sentences) = Except.ok u →
      run_evaluation c sentences "macbert_csc" true persist =
        Except.ok (build_full_results c sentences)) ∧
    run_evaluation c sentences "macbert_csc" false persist =
      Except.ok (build_full_results c sentences) := by
  refine ⟨?_, ?_, rfl⟩
  · intro e he
    simp only [run_evaluation, if_pos rfl, if_pos]
    rw [he]
  · intro u hu
    simp only [run_evaluation, if_pos rfl, if_pos]
    rw [hu]

/-- Witness for the amended C7: a concrete failing persistence step makes
`run_evaluation` return its error. -/
theorem run_evaluation_persist_spec_witness :
    run_evaluation echoCorrector ["b"] "macbert_csc" true failPersist =
      Except.error "disk full" :=
  (run_evaluation_persist_spec echoCorrector ["b"] failPersist).1 "disk full" rfl

/- ### C8 -/

/-- Counterexample to C8: when the corpus loaded from a file is empty,
`run_from_file` performs no emptiness check and still runs the evaluation
to completion, producing a report (with zero sentences) instead of
skipping the run. -/
theorem run_from_file_empty_counterexample :
    run_from_file echoCorrector [] false constOkPersist =
      Except.ok (build_full_results echoCorrector []) ∧
    (build_full_results echoCorrector []).metrics.total_sentences = 0 :=
  ⟨rfl, rfl⟩

/-- C8 (amended): the list-based entry points (`run_from_list` and
main.py's `main`) print a warning and perform no evaluation on an empty
corpus and run the evaluation otherwise, but `run_from_file` runs the
evaluation unconditionally, even when the file yields an empty corpus. -/
theorem cli_empty_corpus_spec (c : String → CorrectionResult)
    (persist : FullResults → Except String Unit) (save : Bool) :
    run_from_list c [] save persist = none ∧
    main_fn c [] persist = none ∧
    (∀ ss : List String, ss ≠ [] →
      run_from_list c ss save persist =
        some (run_evaluation c ss "macbert_csc" save persist)) ∧
    (∀ ss : List String, ss ≠ [] →
      main_fn c ss persist =
        some (run_evaluation c ss "macbert_csc" true persist)) ∧
    (∀ ss : List String,
      run_from_file c ss save persist =
        run_evaluation c ss "macbert_csc" save persist) := by
  refine ⟨rfl, rfl, ?_, ?_, fun _ => rfl⟩
  · intro ss hss
    simp only [run_from_list, List.isEmpty_iff]
    rw [if_neg hss]
  · intro ss hss
    simp only [main_fn, List.isEmpty_iff]
    rw [if_neg hss]

/-- Witness for the amended C8: on the one-sentence corpus ["a"],
`run_from_list` performs the evaluation. -/
theorem cli_empty_corpus_spec_witness :
    run_from_list echoCorrector ["a"] false constOkPersist =
      some (run_evaluation echoCorrector ["a"] "macbert_csc" false constOkPersist) :=
  (cli_empty_corpus_spec echoCorrector constOkPersist false).2.2.1 ["a"] (by decide)

/- ### C9 -/

/-- C9: `load_model` is idempotent — a second call on an initialized
corrector returns immediately without reconstructing the backend (flag
`false`) — and `correct` invoked on an uninitialized corrector lazily
initializes it and produces a result instead of failing. -/
theorem load_model_idempotent_and_lazy (mk : Backend) (m : MacBertCSCCorrector)
    (b : Backend) (hb : m.corrector = some b) (sentence : String) :
    MacBertCSCCorrector.load_model mk m = (m, false) ∧
    (∀ m2 : MacBertCSCCorrector,
      MacBertCSCCorrector.load_model mk (MacBertCSCCorrector.load_model mk m2).1 =
        ((MacBertCSCCorrector.load_model mk m2).1, false)) ∧
    (MacBertCSCCorrector.correct mk { corrector := none } sentence).2.isSome = true ∧
    (MacBertCSCCorrector.correct mk { corrector := none } sentence).1.corrector =
      some mk := by
  refine ⟨?_, ?_, rfl, rfl⟩
  · simp only [MacBertCSCCorrector.load_model, hb]
  · intro m2
    cases hm2 : m2.corrector with
    | none => simp only [MacBertCSCCorrector.load_model, hm2]
    | some b2 => simp only [MacBertCSCCorrector.load_model, hm2]

/-- A concrete backend used to instantiate the corrector theorems: it
echoes the sentence and reports no error details. -/
def cleanBackend : Backend :=
  fun s => (s, [])

/-- Witness for C9: a second `load_model` on an already-initialized
corrector is a no-op that does not reconstruct the backend. -/
theorem load_model_idempotent_and_lazy_witness :
    MacBertCSCCorrector.load_model cleanBackend { corrector := some cleanBackend } =
      ({ corrector := some cleanBackend }, false) :=
  (load_model_idempotent_and_lazy cleanBackend { corrector := some cleanBackend }
    cleanBackend rfl "a").1

/- ### C10 -/

/-- C10: `correct` produces a result whose `has_error` flag is exactly
"the parsed error list is non-empty", where the parsed list keeps one
record per backend detail tuple of length ≥ 2 — position taken from the
third element when present, -1 (unknown) for a length-2 tuple — and
silently drops shorter tuples (so `has_error` can be false even for a
non-empty backend detail list, when every tuple is short). -/
theorem correct_errors_structure (b : Backend) (sentence : String) :
    ∃ res : CorrectionResult,
      (MacBertCSCCorrector.correct b { corrector := none } sentence).2 = some res ∧
      res.corrected = (b sentence).1 ∧
      res.errors = parse_errors (b sentence).2 ∧
      res.has_error = decide (0 < res.errors.length) ∧
      (∀ details : List (List PyVal),
        parse_errors details = details.filterMap parseDetail) ∧
      (∀ (w c p : PyVal) (rest : List PyVal),
        parseDetail (w :: c :: p :: rest) =
          some { position := p, original := w, corrected := c }) ∧
      (∀ w c : PyVal,
        parseDetail [w, c] =
          some { position := PyVal.int (-1), original := w, corrected := c }) ∧
      (∀ d : List PyVal, d.length < 2 → parseDetail d = none) := by
  refine ⟨_, rfl, rfl, rfl, rfl, ?_, fun _ _ _ _ => rfl, fun _ _ => rfl, ?_⟩
  · intro details
    induction details with
    | nil => rfl
    | cons d rest ih =>
      cases hd : parseDetail d with
      | none => simp [parse_errors, List.filterMap_cons, hd, ih]
      | some rec => simp [parse_errors, List.filterMap_cons, hd, ih]
  · intro d hd
    match d, hd with
    | [], _ => rfl
    | [_], _ => rfl
    | _ :: _ :: _, hd => simp at hd; omega

/-- A backend whose detail list has one tuple of each arity: a full
3-tuple, a 2-tuple, and a degenerate 1-tuple. -/
def mixedBackend : Backend :=
  fun s => (s, [[PyVal.str "w", PyVal.str "c", PyVal.int 3],
                [PyVal.str "u", PyVal.str "v"],
                [PyVal.str "z"]])

/-- Witness for C10, instantiated at a backend returning tuples of
length 3, 2 and 1. -/
theorem correct_errors_structure_witness :
    ∃ res : CorrectionResult,
      (MacBertCSCCorrector.correct mixedBackend { corrector := none } "s").2 = some res ∧
      res.corrected = (mixedBackend "s").1 ∧
      res.errors = parse_errors (mixedBackend "s").2 ∧
      res.has_error = decide (0 < res.errors.length) ∧
      (∀ details : List (List PyVal),
        parse_errors details = details.filterMap parseDetail) ∧
      (∀ (w c p : PyVal) (rest : List PyVal),
        parseDetail (w :: c :: p :: rest) =
          some { position := p, original := w, corrected := c }) ∧
      (∀ w c : PyVal,
        parseDetail [w, c] =
          some { position := PyVal.int (-1), original := w, corrected := c }) ∧
      (∀ d : List PyVal, d.length < 2 → parseDetail d = none) :=
  correct_errors_structure mixedBackend "s"
